import Mathlib

/-!
Shallow embedding of the watchlist application's tracking/aggregation/selection
core: the library status filter (`getFilteredItems` in the Library page), the
episode watched lookup (`isEpisodeWatched` in `EpisodeList.jsx`), the derived
progress percentage (`LibraryGrid` and the TV show detail page), the TV
recommendation pipeline and the hero-carousel slot builder (`Home.jsx`).

JavaScript objects are modelled as Lean structures; fields that may be
`undefined` in the source (catalogue-supplied counts, catalogue ids on tracked
records) are `Option Nat`, and the JavaScript truthiness / `||` / `===` / `>=`
semantics on such fields are made explicit by small helper functions.
-/

namespace Watchlist

/-- The `media_type` tag attached to every item ('movie' or 'tv'). -/
inductive MediaKind where
  | movie
  | tv
deriving DecidableEq, Repr

/-- JavaScript `a || b` where `a` is a possibly-undefined number: `undefined`
and `0` are falsy, so the fallback `b` is used for both. -/
def jsOrId : Option Nat → Nat → Nat
  | none, d => d
  | some n, d => if n = 0 then d else n

/-- JavaScript `a === b` where `a` is a number and `b` possibly `undefined`. -/
def jsStrictEq (a : Nat) : Option Nat → Bool
  | some n => a == n
  | none => false

/-- JavaScript `a >= b` where `b` may be `undefined` (comparison with
`undefined` is `NaN`-driven and yields `false`). -/
def jsGe (a : Nat) : Option Nat → Bool
  | some n => n ≤ a
  | none => false

/-- JavaScript `b > 0` where `b` may be `undefined` (then `false`). -/
def jsPos : Option Nat → Bool
  | some n => 0 < n
  | none => false

/-- JavaScript `a < (b || Infinity)`: when `b` is `undefined` or `0` the bound
is `Infinity` and every number is below it. -/
def jsLtOrInfinity (a : Nat) : Option Nat → Bool
  | some n => if n = 0 then true else a < n
  | none => true

/-- A tracked title enriched with catalogue metadata (the objects the Home and
Library pages build by spreading a tracking record and its TMDB detail), or an
upcoming-catalogue item. Fields that a given kind of object does not carry in
the source are simply unused by the functions that model that code path. -/
structure JItem where
  id : Nat
  tmdb_show_id : Option Nat
  tmdb_movie_id : Option Nat
  media_type : MediaKind
  backdrop_path : Bool
  watchlisted : Bool
  watched : Bool
  watched_episodes : Nat
  total_episodes : Option Nat
  favourited : Bool
  rating : Nat
deriving DecidableEq, Repr

/-- The library status filter tabs (`activeFilter` strings in the Library
page). -/
inductive StatusFilter where
  | watching
  | toWatch
  | watched
  | unwatched
  | favourited
  | all
deriving DecidableEq, Repr

/-- The status-filter stage of `getFilteredItems` in the Library page
(`Home.jsx` bundle, lines 286-309), translated branch by branch:
  - watched: movies by `item.watched`, shows by
    `watched_episodes > 0 && watched_episodes === total_episodes`;
  - unwatched: movies by `!item.watched`, shows by `watched_episodes === 0`;
  - favourited: `item.favourited`;
  - watching: TV only, `watched_episodes > 0 &&
    watched_episodes < (total_episodes || Infinity)`;
  - to-watch: movies by `favourited && !watched`, shows by
    `favourited && !(watched_episodes >= total_episodes && total_episodes > 0)`;
  - all: no filtering. -/
def getFilteredItems (activeFilter : StatusFilter) (items : List JItem) :
    List JItem :=
  match activeFilter with
  | .watched => items.filter fun item =>
      if item.media_type = .movie then item.watched
      else item.watched_episodes != 0 &&
        jsStrictEq item.watched_episodes item.total_episodes
  | .unwatched => items.filter fun item =>
      if item.media_type = .movie then !item.watched
      else item.watched_episodes == 0
  | .favourited => items.filter fun item => item.favourited
  | .watching => items.filter fun item =>
      item.media_type == .tv &&
      item.watched_episodes != 0 &&
      jsLtOrInfinity item.watched_episodes item.total_episodes
  | .toWatch => items.filter fun item =>
      if item.media_type = .movie then item.favourited && !item.watched
      else item.favourited &&
        !(jsGe item.watched_episodes item.total_episodes &&
          jsPos item.total_episodes)
  | .all => items

/-- One per-episode tracking record (`EpisodeRecord`): an episode number and a
watched flag. -/
structure EpisodeRecord where
  episode_number : Nat
  watched : Bool
deriving DecidableEq, Repr

/-- `isEpisodeWatched` from `EpisodeList.jsx`: find the tracked record with
matching `episode_number`; if found return its `watched` flag, otherwise
`false`. -/
def isEpisodeWatched (trackedEpisodes : List EpisodeRecord)
    (episodeNumber : Nat) : Bool :=
  match trackedEpisodes.find? (fun e => e.episode_number == episodeNumber) with
  | some tracked => tracked.watched
  | none => false

/-- `Math.round (100 * we / te)` for `te > 0`, on exact rationals: JavaScript
`Math.round` rounds half-way cases up, which on naturals is
`(200 * we + te) / (2 * te)` with floor division. -/
def roundPct (watchedEps totalEps : Nat) : Nat :=
  (200 * watchedEps + totalEps) / (2 * totalEps)

/-- The per-card progress percentage in `LibraryGrid` (`FilterTabs.jsx` bundle,
lines 55-57): `!isMovie && item.total_episodes > 0 ?
Math.round((watched_episodes / total_episodes) * 100) : 0`. -/
def progressPct (isMovie : Bool) (watched_episodes : Nat)
    (total_episodes : Option Nat) : Nat :=
  if !isMovie && jsPos total_episodes then
    roundPct watched_episodes (total_episodes.getD 0)
  else 0

/-- The resolved episode total on the TV show detail page:
`trackingData?.total_episodes || show.number_of_episodes || 0`. -/
def resolvedTotalEps (trackingTotal showTotal : Option Nat) : Nat :=
  jsOrId trackingTotal (jsOrId showTotal 0)

/-- The TV show detail page's progress percentage (part_003, lines 300-302):
`totalEps > 0 ? Math.round((watchedEps / totalEps) * 100) : 0`. -/
def showDetailProgressPct (watchedEps : Nat)
    (trackingTotal showTotal : Option Nat) : Nat :=
  if 0 < resolvedTotalEps trackingTotal showTotal then
    roundPct watchedEps (resolvedTotalEps trackingTotal showTotal)
  else 0

/-! ### Recommendation engine (`Home.jsx`, lines 80-93) -/

/-- The stable-sort predicate induced by the comparator
`(a, b) => b.rating - a.rating`: in a stable descending sort, an
earlier-input element `x` stays before `y` exactly when `y.rating ≤ x.rating`.
-/
def ratingGe (x y : JItem) : Bool :=
  y.rating ≤ x.rating

/-- Insert into a list already sorted by descending rating, keeping
earlier-input elements first on ties (JavaScript `Array.prototype.sort` is
stable). -/
def insertByRating (x : JItem) : List JItem → List JItem
  | [] => [x]
  | y :: ys => if ratingGe x y then x :: y :: ys else y :: insertByRating x ys

/-- `[...validShows].sort((a, b) => b.rating - a.rating)` as a stable
insertion sort. -/
def sortByRatingDesc : List JItem → List JItem
  | [] => []
  | x :: xs => insertByRating x (sortByRatingDesc xs)

/-- `seedShow = [...validShows].sort((a, b) => b.rating - a.rating)[0]`:
the head of the rating-descending stable sort (`undefined`, i.e. `none`, on an
empty list). -/
def seedShow (validShows : List JItem) : Option JItem :=
  (sortByRatingDesc validShows).head?

/-- `trackedShowIds = new Set(validShows.map(s => s.tmdb_show_id || s.id))`. -/
def trackedShowIds (validShows : List JItem) : List Nat :=
  validShows.map fun s => jsOrId s.tmdb_show_id s.id

/-- The `{...s, media_type: 'tv'}` spread applied to every similar result. -/
def withTvKind (s : JItem) : JItem :=
  { s with media_type := .tv }

/-- The TV recommendation pipeline (`Home.jsx`, lines 80-93). The catalogue
call `tmdbAPI.getSimilarTVShows` is a parameter returning either a result list
or a failure; on no seed (`seedShow` falsy) `tvRecs` stays `[]`, on catalogue
failure the `catch` block sets `tvRecs = []`, and otherwise the results are
filtered against `trackedShowIds`, tagged with `media_type: 'tv'` and capped
by `slice(0, 20)`. -/
def tvRecs (validShows : List JItem)
    (getSimilarTVShows : Nat → Except Unit (List JItem)) : List JItem :=
  match seedShow validShows with
  | none => []
  | some seed =>
    match getSimilarTVShows (jsOrId seed.tmdb_show_id seed.id) with
    | .error _ => []
    | .ok results =>
      (((results.filter fun s =>
          !((trackedShowIds validShows).contains s.id)).map
            withTvKind).take 20)

/-! ### Hero slot selector (`Home.jsx`, lines 103-162) -/

/-- The comparator used for both hero library pools:
favourited items first, then rating descending; as with `ratingGe`, this is
the "stays before" predicate of the stable sort. -/
def heroOrderGe (x y : JItem) : Bool :=
  if x.favourited != y.favourited then x.favourited
  else y.rating ≤ x.rating

/-- Stable insertion for `heroOrderGe`. -/
def insertByHeroOrder (x : JItem) : List JItem → List JItem
  | [] => [x]
  | y :: ys =>
    if heroOrderGe x y then x :: y :: ys else y :: insertByHeroOrder x ys

/-- The stable sort by favourited-then-rating used for `libShowsSorted` and
`libFilmsSorted`. -/
def sortByHeroOrder : List JItem → List JItem
  | [] => []
  | x :: xs => insertByHeroOrder x (sortByHeroOrder xs)

/-- `libShowsSorted`: tracked shows with a backdrop and
`watchlisted || watched_episodes > 0`, sorted favourited-first then rating
descending. -/
def libShowsSorted (validShows : List JItem) : List JItem :=
  sortByHeroOrder (validShows.filter fun s =>
    s.backdrop_path && (s.watchlisted || s.watched_episodes != 0))

/-- `libFilmsSorted`: tracked movies with a backdrop and
`watchlisted || watched`, sorted favourited-first then rating descending. -/
def libFilmsSorted (validMovies : List JItem) : List JItem :=
  sortByHeroOrder (validMovies.filter fun m =>
    m.backdrop_path && (m.watchlisted || m.watched))

/-- `libShowIds = new Set(validShows.map(s => s.tmdb_show_id))` — note: all
tracked shows, not just the hero library pool. -/
def libShowIds (validShows : List JItem) : List (Option Nat) :=
  validShows.map fun s => s.tmdb_show_id

/-- `libFilmIds = new Set(validMovies.map(m => m.tmdb_movie_id))`. -/
def libFilmIds (validMovies : List JItem) : List (Option Nat) :=
  validMovies.map fun m => m.tmdb_movie_id

/-- `upcomingTVHero = upcomingTV.filter(s => s.backdrop_path &&
!libShowIds.has(s.id))`. -/
def upcomingTVHero (upcomingTV validShows : List JItem) : List JItem :=
  upcomingTV.filter fun s =>
    s.backdrop_path && !((libShowIds validShows).contains (some s.id))

/-- `upcomingFilmsHero = upcomingMovies.filter(m => m.backdrop_path &&
!libFilmIds.has(m.id))`. -/
def upcomingFilmsHero (upcomingMovies validMovies : List JItem) : List JItem :=
  upcomingMovies.filter fun m =>
    m.backdrop_path && !((libFilmIds validMovies).contains (some m.id))

/-- A hero deduplication key: the string `` `tv-${id}` `` or
`` `movie-${id}` `` is modelled as the pair (media kind, id). -/
abbrev HeroKey := MediaKind × Nat

/-- `tvKey = s => ` the string `` `tv-${s.tmdb_show_id || s.id}` ``. -/
def tvKey (s : JItem) : HeroKey :=
  (.tv, jsOrId s.tmdb_show_id s.id)

/-- `filmKey = m => ` the string `` `movie-${m.tmdb_movie_id || m.id}` ``. -/
def filmKey (m : JItem) : HeroKey :=
  (.movie, jsOrId m.tmdb_movie_id m.id)

/-- The `hero_type` tag each built slot carries. -/
inductive HeroType where
  | library_tv
  | library_film
  | coming_soon_tv
  | coming_soon_film
deriving DecidableEq, Repr

/-- One entry pushed onto `built`: the chosen item (whose `media_type` may be
overridden for upcoming picks) together with its `hero_type` tag. -/
structure HeroEntry where
  item : JItem
  media_type : MediaKind
  hero_type : HeroType
deriving DecidableEq, Repr

/-- `take(pool, keyFn)`: walk the pool, skip items whose key is already in
`heroUsed`, and return the first unused item after adding its key to
`heroUsed`; the state `heroUsed` is passed explicitly. -/
def take : List JItem → (JItem → HeroKey) → List HeroKey →
    Option JItem × List HeroKey
  | [], _, used => (none, used)
  | item :: rest, keyFn, used =>
    if keyFn item ∈ used then take rest keyFn used
    else (some item, keyFn item :: used)

/-- `{...hs, hero_type: 'library_tv'}` — the item's own `media_type` is kept. -/
def mkLibraryTv (it : JItem) : HeroEntry :=
  ⟨it, it.media_type, .library_tv⟩

/-- `{...hf, hero_type: 'library_film'}`. -/
def mkLibraryFilm (it : JItem) : HeroEntry :=
  ⟨it, it.media_type, .library_film⟩

/-- `{...fb, media_type: 'tv', hero_type: 'coming_soon_tv'}`. -/
def mkComingSoonTv (it : JItem) : HeroEntry :=
  ⟨it, .tv, .coming_soon_tv⟩

/-- `{...fb, media_type: 'movie', hero_type: 'coming_soon_film'}`. -/
def mkComingSoonFilm (it : JItem) : HeroEntry :=
  ⟨it, .movie, .coming_soon_film⟩

/-- One slot of the builder: `take` from the primary pool and push the tagged
item; if that yields nothing, `take` from the fallback pool instead; a slot
whose two `take`s both fail pushes nothing and leaves `heroUsed` unchanged. -/
def slotFill (primary fallback : List JItem) (keyFn : JItem → HeroKey)
    (tagP tagF : JItem → HeroEntry) (used : List HeroKey) :
    Option HeroEntry × List HeroKey :=
  match take primary keyFn used with
  | (some it, used') => (some (tagP it), used')
  | (none, _) =>
    match take fallback keyFn used with
    | (some it, used') => (some (tagF it), used')
    | (none, used') => (none, used')

/-- The `built` array of `Home.jsx` lines 135-160: five slots in order —
1: library show (fallback upcoming show), 2: library film (fallback upcoming
film), 3: next library show (fallback upcoming show), 4: upcoming show
(fallback library show), 5: upcoming film (fallback library film) — each
pushing at most one tagged entry, sharing one `heroUsed` set. -/
def built (libShows libFilms upTV upFilms : List JItem) : List HeroEntry :=
  let r1 := slotFill libShows upTV tvKey mkLibraryTv mkComingSoonTv []
  let r2 := slotFill libFilms upFilms filmKey mkLibraryFilm mkComingSoonFilm r1.2
  let r3 := slotFill libShows upTV tvKey mkLibraryTv mkComingSoonTv r2.2
  let r4 := slotFill upTV libShows tvKey mkComingSoonTv mkLibraryTv r3.2
  let r5 := slotFill upFilms libFilms filmKey mkComingSoonFilm mkLibraryFilm r4.2
  r1.1.toList ++ r2.1.toList ++ r3.1.toList ++ r4.1.toList ++ r5.1.toList

/-- The (media kind, id) identity of a built entry: the key under which the
builder recorded it in `heroUsed` (tv slots use `tvKey`, film slots
`filmKey`). -/
def entryKey (e : HeroEntry) : HeroKey :=
  match e.hero_type with
  | .library_tv => tvKey e.item
  | .coming_soon_tv => tvKey e.item
  | .library_film => filmKey e.item
  | .coming_soon_film => filmKey e.item

/-! ### Spec-level hero slot selector (§4.4 of the specification)

The specification describes the selector declaratively: an ordered list of
five (primary pool, fallback pool) pairs, where each slot takes the first
item of its primary pool still under consideration (placed items are removed
from consideration for all subsequent slots, identified by media kind + id),
else the first such item of its fallback pool, else is omitted with gaps
collapsed, each filled slot tagged with its chosen pool. -/

/-- Spec-level choice: the first item of the pool whose identity is still
under consideration (not yet placed). -/
def specTake (pool : List JItem) (keyFn : JItem → HeroKey)
    (placed : List HeroKey) : Option JItem :=
  (pool.filter fun it => !(decide (keyFn it ∈ placed))).head?

/-- One slot of the declarative plan: primary pool, fallback pool, the
identity function for the slot's media kind, and the pool tags for the
primary and fallback choices. -/
structure SlotPlan where
  primary : List JItem
  fallback : List JItem
  keyFn : JItem → HeroKey
  tagP : JItem → HeroEntry
  tagF : JItem → HeroEntry

/-- Spec-level processing of one slot: place the primary choice, else the
fallback choice, else omit the slot; a placed item's identity is removed from
consideration for later slots. -/
def slotStepSpec (acc : List HeroEntry × List HeroKey) (sl : SlotPlan) :
    List HeroEntry × List HeroKey :=
  match specTake sl.primary sl.keyFn acc.2 with
  | some it => (acc.1 ++ [sl.tagP it], sl.keyFn it :: acc.2)
  | none =>
    match specTake sl.fallback sl.keyFn acc.2 with
    | some it => (acc.1 ++ [sl.tagF it], sl.keyFn it :: acc.2)
    | none => acc

/-- The fixed slot order of §4.4: 1 library show / upcoming show, 2 library
film / upcoming film, 3 library show / upcoming show, 4 upcoming show /
library show, 5 upcoming film / library film. -/
def heroSlotPlan (libShows libFilms upTV upFilms : List JItem) :
    List SlotPlan :=
  [⟨libShows, upTV, tvKey, mkLibraryTv, mkComingSoonTv⟩,
   ⟨libFilms, upFilms, filmKey, mkLibraryFilm, mkComingSoonFilm⟩,
   ⟨libShows, upTV, tvKey, mkLibraryTv, mkComingSoonTv⟩,
   ⟨upTV, libShows, tvKey, mkComingSoonTv, mkLibraryTv⟩,
   ⟨upFilms, libFilms, filmKey, mkComingSoonFilm, mkLibraryFilm⟩]

/-- Modelled from the spec (§4.4): fold the declarative slot plan, collecting
the filled slots in order 1→5 with gaps collapsed. -/
def heroSlotsSpec (libShows libFilms upTV upFilms : List JItem) :
    List HeroEntry :=
  ((heroSlotPlan libShows libFilms upTV upFilms).foldl slotStepSpec
    ([], [])).1

/-- Implementation-side runner over a slot plan: each slot is executed by
`slotFill` and its (at most one) entry appended. `built` is exactly this
runner on `heroSlotPlan`. -/
def runSlots : List SlotPlan → List HeroEntry × List HeroKey →
    List HeroEntry × List HeroKey
  | [], acc => acc
  | sl :: rest, acc =>
    let r := slotFill sl.primary sl.fallback sl.keyFn sl.tagP sl.tagF acc.2
    runSlots rest (acc.1 ++ r.1.toList, r.2)

/-- The builder invariant: the entries collected so far have pairwise
distinct identities, each recorded in the `heroUsed` set. -/
def HeroInv (es : List HeroEntry) (used : List HeroKey) : Prop :=
  (es.map entryKey).Nodup ∧ ∀ e ∈ es, entryKey e ∈ used

/-- The greatest rating among a list of tracked shows (0 when empty). -/
def maxRating (shows : List JItem) : Nat :=
  shows.foldr (fun s m => max s.rating m) 0

/-! ### Concrete items used by counterexamples and witnesses -/

/-- A movie tracked only via the watchlist flag: watchlisted, not favourited,
not watched. -/
def watchlistedOnlyMovie : JItem :=
  { id := 5, tmdb_show_id := none, tmdb_movie_id := some 5,
    media_type := .movie, backdrop_path := true, watchlisted := true,
    watched := false, watched_episodes := 0, total_episodes := none,
    favourited := false, rating := 0 }

/-- A tracked show without a backdrop image (so it is excluded from the hero
library pool) whose catalogue id is 7. -/
def noBackdropTrackedShow : JItem :=
  { id := 7, tmdb_show_id := some 7, tmdb_movie_id := none,
    media_type := .tv, backdrop_path := false, watchlisted := true,
    watched := false, watched_episodes := 0, total_episodes := none,
    favourited := false, rating := 0 }

/-- An upcoming catalogue show with a backdrop whose id is 7 — the same title
as `noBackdropTrackedShow`. -/
def upcomingShowSeven : JItem :=
  { id := 7, tmdb_show_id := none, tmdb_movie_id := none,
    media_type := .tv, backdrop_path := true, watchlisted := false,
    watched := false, watched_episodes := 0, total_episodes := none,
    favourited := false, rating := 0 }

/-- A tracked show with catalogue id 1 and rating 4, used to seed witnesses. -/
def trackedShowOne : JItem :=
  { id := 1, tmdb_show_id := some 1, tmdb_movie_id := none,
    media_type := .tv, backdrop_path := true, watchlisted := false,
    watched := false, watched_episodes := 2, total_episodes := some 8,
    favourited := false, rating := 4 }

/-- A catalogue similar-titles result whose id 1 collides with
`trackedShowOne`. -/
def similarHitOne : JItem :=
  { id := 1, tmdb_show_id := none, tmdb_movie_id := none,
    media_type := .tv, backdrop_path := true, watchlisted := false,
    watched := false, watched_episodes := 0, total_episodes := none,
    favourited := false, rating := 0 }

/-- A catalogue stub returning exactly `similarHitOne` for every id. -/
def similarStub : Nat → Except Unit (List JItem) :=
  fun _ => .ok [similarHitOne]

/-- A catalogue stub that always fails. -/
def failingStub : Nat → Except Unit (List JItem) :=
  fun _ => .error ()

/-- A fully watched tracked show: 3 of 3 episodes. -/
def fullyWatchedShow : JItem :=
  { id := 9, tmdb_show_id := some 9, tmdb_movie_id := none,
    media_type := .tv, backdrop_path := true, watchlisted := false,
    watched := false, watched_episodes := 3, total_episodes := some 3,
    favourited := false, rating := 5 }

/-! ## Lemmas about `take` and `slotFill` -/

theorem take_eq_some {pool : List JItem} {keyFn : JItem → HeroKey}
    {used used' : List HeroKey} {it : JItem}
    (h : take pool keyFn used = (some it, used')) :
    it ∈ pool ∧ keyFn it ∉ used ∧ used' = keyFn it :: used := by
  induction pool with
  | nil => simp [take] at h
  | cons x xs ih =>
    rw [take] at h
    by_cases hx : keyFn x ∈ used
    · rw [if_pos hx] at h
      rcases ih h with ⟨h1, h2, h3⟩
      exact ⟨List.mem_cons_of_mem _ h1, h2, h3⟩
    · rw [if_neg hx] at h
      have h' : x = it ∧ keyFn x :: used = used' := by
        simpa using h
      rcases h' with ⟨rfl, rfl⟩
      exact ⟨List.mem_cons_self _ _, hx, rfl⟩

theorem take_eq_none {pool : List JItem} {keyFn : JItem → HeroKey}
    {used used' : List HeroKey}
    (h : take pool keyFn used = (none, used')) : used' = used := by
  induction pool with
  | nil =>
    have h' : used = used' := by simpa [take] using h
    exact h'.symm
  | cons x xs ih =>
    rw [take] at h
    by_cases hx : keyFn x ∈ used
    · rw [if_pos hx] at h
      exact ih h
    · rw [if_neg hx] at h
      simp at h

theorem take_eq_specTake (pool : List JItem) (keyFn : JItem → HeroKey)
    (used : List HeroKey) :
    take pool keyFn used =
      match specTake pool keyFn used with
      | some it => (some it, keyFn it :: used)
      | none => (none, used) := by
  induction pool with
  | nil => rfl
  | cons x xs ih =>
    rw [take]
    by_cases hx : keyFn x ∈ used
    · rw [if_pos hx]
      have hfilter : specTake (x :: xs) keyFn used = specTake xs keyFn used := by
        simp [specTake, List.filter_cons, hx]
      rw [hfilter]
      exact ih
    · rw [if_neg hx]
      have hfilter : specTake (x :: xs) keyFn used = some x := by
        simp [specTake, List.filter_cons, hx]
      rw [hfilter]

theorem slotFill_eq_slotStep (p f : List JItem) (k : JItem → HeroKey)
    (tP tF : JItem → HeroEntry) (es : List HeroEntry) (used : List HeroKey) :
    (es ++ (slotFill p f k tP tF used).1.toList,
      (slotFill p f k tP tF used).2) =
      slotStepSpec (es, used) ⟨p, f, k, tP, tF⟩ := by
  rcases hsp : specTake p k used with _ | it
  · have h1 : take p k used = (none, used) := by
      rw [take_eq_specTake, hsp]
    rcases hsf : specTake f k used with _ | it
    · have h2 : take f k used = (none, used) := by
        rw [take_eq_specTake, hsf]
      simp [slotFill, slotStepSpec, h1, h2, hsp, hsf]
    · have h2 : take f k used = (some it, k it :: used) := by
        rw [take_eq_specTake, hsf]
      simp [slotFill, slotStepSpec, h1, h2, hsp, hsf]
  · have h1 : take p k used = (some it, k it :: used) := by
      rw [take_eq_specTake, hsp]
    simp [slotFill, slotStepSpec, h1, hsp]

theorem runSlots_eq_foldl (plan : List SlotPlan)
    (acc : List HeroEntry × List HeroKey) :
    runSlots plan acc = plan.foldl slotStepSpec acc := by
  induction plan generalizing acc with
  | nil => rfl
  | cons sl rest ih =>
    simp only [runSlots, List.foldl_cons]
    rw [ih]
    congr 1
    exact slotFill_eq_slotStep sl.primary sl.fallback sl.keyFn sl.tagP sl.tagF
      acc.1 acc.2

theorem built_eq_runSlots (libShows libFilms upTV upFilms : List JItem) :
    built libShows libFilms upTV upFilms =
      (runSlots (heroSlotPlan libShows libFilms upTV upFilms) ([], [])).1 := by
  simp only [built, runSlots, heroSlotPlan, List.nil_append, List.append_assoc]

theorem slotFill_preserves {p f : List JItem} {k : JItem → HeroKey}
    {tP tF : JItem → HeroEntry}
    (hP : ∀ it, entryKey (tP it) = k it) (hF : ∀ it, entryKey (tF it) = k it)
    {es : List HeroEntry} {used : List HeroKey} (hInv : HeroInv es used) :
    HeroInv (es ++ (slotFill p f k tP tF used).1.toList)
      (slotFill p f k tP tF used).2 := by
  rcases hp : take p k used with ⟨o, u⟩
  cases o with
  | some it =>
    rcases take_eq_some hp with ⟨-, hnew, rfl⟩
    simp only [slotFill, hp]
    constructor
    · rw [List.map_append]
      refine List.nodup_append.mpr ⟨hInv.1, List.nodup_singleton _, ?_⟩
      intro a ha hb
      simp only [Option.toList_some, List.map_cons, List.map_nil,
        List.mem_singleton] at hb
      rcases List.mem_map.mp ha with ⟨e, he, rfl⟩
      have hmem : entryKey e ∈ used := hInv.2 e he
      rw [hb, hP it] at hmem
      exact hnew hmem
    · intro e he
      rcases List.mem_append.mp he with he | he
      · exact List.mem_cons_of_mem _ (hInv.2 e he)
      · rw [Option.toList_some, List.mem_singleton] at he
        subst he
        rw [hP it]
        exact List.mem_cons_self _ _
  | none =>
    rcases hf : take f k used with ⟨o2, u2⟩
    cases o2 with
    | some it =>
      rcases take_eq_some hf with ⟨-, hnew, rfl⟩
      simp only [slotFill, hp, hf]
      constructor
      · rw [List.map_append]
        refine List.nodup_append.mpr ⟨hInv.1, List.nodup_singleton _, ?_⟩
        intro a ha hb
        simp only [Option.toList_some, List.map_cons, List.map_nil,
          List.mem_singleton] at hb
        rcases List.mem_map.mp ha with ⟨e, he, rfl⟩
        have hmem : entryKey e ∈ used := hInv.2 e he
        rw [hb, hF it] at hmem
        exact hnew hmem
      · intro e he
        rcases List.mem_append.mp he with he | he
        · exact List.mem_cons_of_mem _ (hInv.2 e he)
        · rw [Option.toList_some, List.mem_singleton] at he
          subst he
          rw [hF it]
          exact List.mem_cons_self _ _
    | none =>
      have hu2 := take_eq_none hf
      subst hu2
      simp only [slotFill, hp, hf, Option.toList_none, List.append_nil]
      exact hInv

theorem runSlots_inv : ∀ (plan : List SlotPlan)
    (acc : List HeroEntry × List HeroKey),
    (∀ sl ∈ plan, (∀ it, entryKey (sl.tagP it) = sl.keyFn it) ∧
      (∀ it, entryKey (sl.tagF it) = sl.keyFn it)) →
    HeroInv acc.1 acc.2 →
    HeroInv (runSlots plan acc).1 (runSlots plan acc).2 := by
  intro plan
  induction plan with
  | nil =>
    intro acc _ hacc
    exact hacc
  | cons sl rest ih =>
    intro acc hplan hacc
    simp only [runSlots]
    exact ih _ (fun s hs => hplan s (List.mem_cons_of_mem _ hs))
      (slotFill_preserves (hplan sl (List.mem_cons_self _ _)).1
        (hplan sl (List.mem_cons_self _ _)).2 hacc)

/-- C2: for every combination of the four candidate pools, the hero slot
builder's output contains no two entries with the same (media kind, id)
identity — the `tv-`/`movie-` prefixed key under which the builder
deduplicates — and when all four pools are empty the output is empty. -/
theorem hero_output_nodup (libShows libFilms upTV upFilms : List JItem) :
    ((built libShows libFilms upTV upFilms).map entryKey).Nodup
    ∧ built [] [] [] [] = [] := by
  constructor
  · rw [built_eq_runSlots]
    refine (runSlots_inv _ ([], []) ?_ ?_).1
    · intro sl hsl
      simp only [heroSlotPlan, List.mem_cons, List.not_mem_nil, or_false] at hsl
      rcases hsl with rfl | rfl | rfl | rfl | rfl <;>
        exact ⟨fun _ => rfl, fun _ => rfl⟩
    · exact ⟨List.nodup_nil, by simp⟩
  · rfl

/-- C3: the straight-line five-slot builder of the source equals the
declarative spec-level selector: slots are filled in the fixed order
1 library show / upcoming show, 2 library film / upcoming film, 3 next
library show / upcoming show, 4 upcoming show / library show, 5 upcoming
film / library film, each tagged with its chosen pool, a slot with both
pools exhausted is omitted, and the output lists filled slots in order with
gaps collapsed. -/
theorem hero_slots_refine_spec (libShows libFilms upTV upFilms : List JItem) :
    built libShows libFilms upTV upFilms =
      heroSlotsSpec libShows libFilms upTV upFilms := by
  rw [built_eq_runSlots, heroSlotsSpec, runSlots_eq_foldl]

/-! ## Lemmas about the recommendation seed -/

theorem head?_insertByRating (x : JItem) (l : List JItem) :
    (insertByRating x l).head? =
      some (match l.head? with
        | none => x
        | some y => if ratingGe x y then x else y) := by
  cases l with
  | nil => rfl
  | cons y ys =>
    rw [insertByRating]
    by_cases h : ratingGe x y
    · rw [if_pos h]
      simp [h]
    · rw [if_neg h]
      simp [h]

theorem maxRating_cons (x : JItem) (xs : List JItem) :
    maxRating (x :: xs) = max x.rating (maxRating xs) := rfl

theorem rating_le_maxRating {s : JItem} {shows : List JItem} (h : s ∈ shows) :
    s.rating ≤ maxRating shows := by
  induction shows with
  | nil => simp at h
  | cons x xs ih =>
    rw [maxRating_cons]
    rcases List.mem_cons.mp h with rfl | h
    · exact Nat.le_max_left _ _
    · exact le_trans (ih h) (Nat.le_max_right _ _)

theorem maxRating_attained : ∀ {xs : List JItem}, xs ≠ [] →
    ∃ s ∈ xs, s.rating = maxRating xs := by
  intro xs
  induction xs with
  | nil => intro h; exact absurd rfl h
  | cons x ys ih =>
    intro _
    by_cases hys : ys = []
    · subst hys
      refine ⟨x, List.mem_cons_self _ _, ?_⟩
      simp [maxRating]
    · rcases le_total (maxRating ys) x.rating with hle | hle
      · exact ⟨x, List.mem_cons_self _ _,
          by rw [maxRating_cons, Nat.max_eq_left hle]⟩
      · rcases ih hys with ⟨s, hs, hr⟩
        refine ⟨s, List.mem_cons_of_mem _ hs, ?_⟩
        rw [maxRating_cons, Nat.max_eq_right hle]
        exact hr

theorem seedShow_eq_find (shows : List JItem) :
    seedShow shows = shows.find? (fun s => s.rating == maxRating shows) := by
  induction shows with
  | nil => rfl
  | cons x xs ih =>
    rw [seedShow, sortByRatingDesc, head?_insertByRating]
    cases hh : (sortByRatingDesc xs).head? with
    | none =>
      have hnone : xs.find? (fun s => s.rating == maxRating xs) = none := by
        rw [← ih, seedShow]
        exact hh
      have hxs : xs = [] := by
        by_contra hne
        rcases maxRating_attained hne with ⟨s, hs, hr⟩
        exact absurd (by simp [hr]) (List.find?_eq_none.mp hnone s hs)
      subst hxs
      rw [List.find?_cons_of_pos _ (by simp [maxRating])]
    | some y =>
      have hy : xs.find? (fun s => s.rating == maxRating xs) = some y := by
        rw [← ih, seedShow]
        exact hh
      have hymax : y.rating = maxRating xs := by
        simpa using List.find?_some hy
      rcases le_or_lt (maxRating xs) x.rating with hle | hlt
      · have hge : ratingGe x y = true := by
          simp only [ratingGe, decide_eq_true_eq]
          rw [hymax]
          exact hle
        show some (if ratingGe x y = true then x else y) =
          List.find? (fun s => s.rating == maxRating (x :: xs)) (x :: xs)
        rw [if_pos hge]
        rw [List.find?_cons_of_pos _
          (by simp [maxRating_cons, Nat.max_eq_left hle])]
      · have hge : ratingGe x y = false := by
          simp only [ratingGe, decide_eq_false_iff_not, not_le]
          rw [hymax]
          exact hlt
        show some (if ratingGe x y = true then x else y) =
          List.find? (fun s => s.rating == maxRating (x :: xs)) (x :: xs)
        rw [if_neg (by simp [hge])]
        have hmaxeq : maxRating (x :: xs) = maxRating xs := by
          rw [maxRating_cons, Nat.max_eq_right (le_of_lt hlt)]
        rw [List.find?_cons_of_neg _
          (by simp [hmaxeq, Nat.ne_of_lt hlt]), hmaxeq]
        exact hy.symm

theorem tvRecs_not_tracked (shows : List JItem)
    (g : Nat → Except Unit (List JItem)) :
    ∀ x ∈ tvRecs shows g, x.id ∉ trackedShowIds shows := by
  intro x hx
  rw [tvRecs] at hx
  split at hx
  · simp at hx
  · split at hx
    · simp at hx
    · have hx' := List.take_subset _ _ hx
      rcases List.mem_map.mp hx' with ⟨s, hsmem, rfl⟩
      have hfil := (List.mem_filter.mp hsmem).2
      intro hmem
      have hmem' : s.id ∈ trackedShowIds shows := hmem
      have hnot : s.id ∉ trackedShowIds shows := by simpa using hfil
      exact hnot hmem'

/-- C5: the recommendation seed is the first tracked show attaining the
maximum rating (highest rating, ties broken by first-seen input order); an
unrated show (rating 0) is chosen only when no rated show exists, and with
zero tracked shows the seed is `none` and the recommendation output is
empty. -/
theorem recommendation_seed (shows : List JItem)
    (getSim : Nat → Except Unit (List JItem)) :
    seedShow shows = shows.find? (fun s => s.rating == maxRating shows)
    ∧ (shows = [] → seedShow shows = none ∧ tvRecs shows getSim = [])
    ∧ (∀ s, seedShow shows = some s →
        s ∈ shows ∧ (∀ t ∈ shows, t.rating ≤ s.rating) ∧
        ((∃ t ∈ shows, 0 < t.rating) → 0 < s.rating)) := by
  refine ⟨seedShow_eq_find shows, ?_, ?_⟩
  · rintro rfl
    exact ⟨rfl, rfl⟩
  · intro s hs
    rw [seedShow_eq_find] at hs
    have hmem := List.mem_of_find?_eq_some hs
    have hmax : s.rating = maxRating shows := by
      simpa using List.find?_some hs
    refine ⟨hmem, ?_, ?_⟩
    · intro t ht
      rw [hmax]
      exact rating_le_maxRating ht
    · rintro ⟨t, ht, htpos⟩
      rw [hmax]
      exact lt_of_lt_of_le htpos (rating_le_maxRating ht)

/-- Witness for C5: the empty tracked set yields no seed and an empty
recommendation list, and a singleton tracked set yields its unique show as
seed. -/
theorem recommendation_seed_witness :
    (seedShow [] = none ∧ tvRecs [] similarStub = []) ∧
      trackedShowOne ∈ [trackedShowOne] :=
  ⟨(recommendation_seed [] similarStub).2.1 rfl,
   ((recommendation_seed [trackedShowOne] similarStub).2.2 trackedShowOne
      rfl).1⟩

/-- C6: on a successful catalogue lookup the recommendation output is
exactly the first at-most-20 catalogue results whose ids are not in the
tracked-show id set, in catalogue order; its length never exceeds 20; and no
output id is ever in the tracked-show set, for any catalogue behaviour. -/
theorem recommendation_output (shows results : List JItem)
    (getSim : Nat → Except Unit (List JItem)) (seed : JItem)
    (hseed : seedShow shows = some seed)
    (hcat : getSim (jsOrId seed.tmdb_show_id seed.id) = .ok results) :
    tvRecs shows getSim =
      ((results.filter fun s =>
        !((trackedShowIds shows).contains s.id)).map withTvKind).take 20
    ∧ (tvRecs shows getSim).length ≤ 20
    ∧ ∀ (g : Nat → Except Unit (List JItem)), ∀ x ∈ tvRecs shows g,
        x.id ∉ trackedShowIds shows := by
  have hred : tvRecs shows getSim =
      match getSim (jsOrId seed.tmdb_show_id seed.id) with
      | .error _ => []
      | .ok results =>
        ((results.filter fun s =>
          !((trackedShowIds shows).contains s.id)).map withTvKind).take 20 := by
    rw [tvRecs, hseed]
  have heq : tvRecs shows getSim =
      ((results.filter fun s =>
        !((trackedShowIds shows).contains s.id)).map withTvKind).take 20 := by
    rw [hred, hcat]
  refine ⟨heq, ?_, fun g => tvRecs_not_tracked shows g⟩
  rw [heq]
  exact List.length_take_le _ _

/-- Witness for C6: a tracked show with id 1 and a catalogue returning a
single similar title whose id is also 1 produces an empty recommendation
list — the overlapping result is filtered out. -/
theorem recommendation_output_witness :
    tvRecs [trackedShowOne] similarStub = [] := by
  have h := (recommendation_output [trackedShowOne] [similarHitOne]
    similarStub trackedShowOne rfl rfl).1
  rw [h]
  rfl

/-- C7: when the catalogue similar-titles lookup fails, the recommendation
operation returns the empty list (the failure is absorbed, never
propagated: `tvRecs` is total and yields a plain list). -/
theorem recommendation_fail_soft (shows : List JItem)
    (getSim : Nat → Except Unit (List JItem)) (seed : JItem)
    (hseed : seedShow shows = some seed)
    (hfail : getSim (jsOrId seed.tmdb_show_id seed.id) = .error ()) :
    tvRecs shows getSim = [] := by
  have hred : tvRecs shows getSim =
      match getSim (jsOrId seed.tmdb_show_id seed.id) with
      | .error _ => []
      | .ok results =>
        ((results.filter fun s =>
          !((trackedShowIds shows).contains s.id)).map withTvKind).take 20 := by
    rw [tvRecs, hseed]
  rw [hred, hfail]

/-- Witness for C7: a failing catalogue stub with a non-empty tracked set
yields the empty recommendation list. -/
theorem recommendation_fail_soft_witness :
    tvRecs [trackedShowOne] failingStub = [] :=
  recommendation_fail_soft [trackedShowOne] failingStub trackedShowOne rfl rfl

/-! ## Library filter, progress and episode lookup theorems -/

/-- C1 counterexample: `watchlistedOnlyMovie` has `watchlisted = true`, yet
the 'to-watch' status filter omits it (the implementation tests
`favourited && !watched`, not `watchlisted`), so the filter does not return
exactly the watchlisted items. -/
theorem toWatch_filter_cex :
    watchlistedOnlyMovie.watchlisted = true ∧
      getFilteredItems .toWatch [watchlistedOnlyMovie] = [] := by
  exact ⟨rfl, rfl⟩

/-- C1 (amended): the 'to-watch' status filter returns exactly the
favourited-but-unfinished items — a movie iff `favourited && !watched`, a
show iff favourited and not (`watched_episodes >= total_episodes` with
`total_episodes > 0`); the watchlisted flag plays no role. -/
theorem toWatch_filter (items : List JItem) (item : JItem) :
    item ∈ getFilteredItems .toWatch items ↔
      item ∈ items ∧
      (if item.media_type = .movie then
        item.favourited = true ∧ item.watched = false
       else
        item.favourited = true ∧
          ¬(jsGe item.watched_episodes item.total_episodes = true ∧
            jsPos item.total_episodes = true)) := by
  simp only [getFilteredItems, List.mem_filter]
  refine and_congr_right fun _ => ?_
  by_cases hmt : item.media_type = .movie
  · rw [if_pos hmt, if_pos hmt]
    simp
  · rw [if_neg hmt, if_neg hmt]
    cases hge : jsGe item.watched_episodes item.total_episodes <;>
      cases hpos : jsPos item.total_episodes <;>
        simp [hge, hpos]

/-- C8: a show (media_type 'tv') passes the 'watched' filter iff
`total_episodes > 0` and `watched_episodes === total_episodes`, and the
implementation's `watched_episodes > 0 && watched_episodes ===
total_episodes` coincides with that predicate for all non-negative counts. -/
theorem watched_filter_show (items : List JItem) (item : JItem)
    (h : item.media_type = .tv) :
    (item ∈ getFilteredItems .watched items ↔
      item ∈ items ∧ jsPos item.total_episodes = true ∧
        jsStrictEq item.watched_episodes item.total_episodes = true)
    ∧ ∀ (we : Nat) (te : Option Nat),
        ((we ≠ 0 ∧ jsStrictEq we te = true) ↔
          (jsPos te = true ∧ jsStrictEq we te = true)) := by
  constructor
  · simp only [getFilteredItems, List.mem_filter]
    refine and_congr_right fun _ => ?_
    have hne : ¬ item.media_type = .movie := by
      rw [h]
      intro hc
      cases hc
    rw [if_neg hne]
    cases hte : item.total_episodes with
    | none => simp [jsStrictEq, jsPos]
    | some k =>
      simp only [jsStrictEq, jsPos, Bool.and_eq_true, bne_iff_ne, ne_eq,
        beq_iff_eq, decide_eq_true_eq]
      omega
  · intro we te
    cases te with
    | none => simp [jsStrictEq, jsPos]
    | some k =>
      simp only [jsStrictEq, jsPos, ne_eq, beq_iff_eq, decide_eq_true_eq]
      omega

/-- Witness for C8: a show with 3 of 3 episodes watched passes the
'watched' filter. -/
theorem watched_filter_show_witness :
    fullyWatchedShow ∈ getFilteredItems .watched [fullyWatchedShow] :=
  ((watched_filter_show [fullyWatchedShow] fullyWatchedShow rfl).1).mpr
    ⟨List.mem_cons_self _ _, rfl, rfl⟩

/-- C9: when the episode total is unknown (`undefined`) or zero, the derived
progress percentage is 0 at both sites (library grid card and show detail
page), and the rounding division is reached only under the
`total_episodes > 0` guard. -/
theorem progress_guard (we : Nat) (te tt st : Option Nat) :
    ((te = none ∨ te = some 0) → progressPct false we te = 0)
    ∧ (resolvedTotalEps tt st = 0 → showDetailProgressPct we tt st = 0)
    ∧ (∀ k : Nat, te = some k → 0 < k →
        progressPct false we te = roundPct we k) := by
  refine ⟨?_, ?_, ?_⟩
  · rintro (rfl | rfl) <;> simp [progressPct, jsPos]
  · intro hz
    rw [showDetailProgressPct, if_neg (by omega)]
  · rintro k rfl hk
    simp [progressPct, jsPos, hk]

/-- Witness for C9: concrete evaluations of both progress sites. -/
theorem progress_guard_witness :
    progressPct false 5 none = 0 ∧ showDetailProgressPct 5 none none = 0 ∧
      progressPct false 1 (some 2) = roundPct 1 2 :=
  ⟨(progress_guard 5 none none none).1 (Or.inl rfl),
   (progress_guard 5 none none none).2.1 rfl,
   (progress_guard 1 (some 2) none none).2.2 2 rfl (by decide)⟩

theorem isEpisodeWatched_iff : ∀ (tracked : List EpisodeRecord) (n : Nat),
    tracked.Pairwise (fun a b => a.episode_number ≠ b.episode_number) →
    (isEpisodeWatched tracked n = true ↔
      ∃ e ∈ tracked, e.episode_number = n ∧ e.watched = true) := by
  intro tracked n
  induction tracked with
  | nil =>
    intro _
    simp [isEpisodeWatched]
  | cons e es ih =>
    intro hp
    rw [isEpisodeWatched]
    by_cases he : e.episode_number = n
    · rw [List.find?_cons_of_pos _ (by simp [he])]
      constructor
      · intro hw
        exact ⟨e, List.mem_cons_self _ _, he, hw⟩
      · rintro ⟨e', he', hn', hw'⟩
        rcases List.mem_cons.mp he' with rfl | hmem
        · exact hw'
        · exact absurd (he.trans hn'.symm)
            ((List.pairwise_cons.mp hp).1 e' hmem)
    · rw [List.find?_cons_of_neg _ (by simp [he])]
      have ihh := ih (List.pairwise_cons.mp hp).2
      rw [isEpisodeWatched] at ihh
      rw [ihh]
      constructor
      · rintro ⟨e', hmem, hn', hw'⟩
        exact ⟨e', List.mem_cons_of_mem _ hmem, hn', hw'⟩
      · rintro ⟨e', hmem, hn', hw'⟩
        rcases List.mem_cons.mp hmem with rfl | hmem'
        · exact absurd hn' he
        · exact ⟨e', hmem', hn', hw'⟩

/-- C10: with at most one tracking record per episode number (the data-model
invariant), an episode renders as watched iff a record with its number
exists and its watched flag is true; in particular an episode with no record
renders unwatched, indistinguishable from one whose record has
watched = false. -/
theorem episode_watched_lookup (tracked : List EpisodeRecord) (n : Nat)
    (huniq : tracked.Pairwise
      (fun a b => a.episode_number ≠ b.episode_number)) :
    (isEpisodeWatched tracked n = true ↔
      ∃ e ∈ tracked, e.episode_number = n ∧ e.watched = true)
    ∧ ((∀ e ∈ tracked, e.episode_number ≠ n) →
        isEpisodeWatched tracked n = false) := by
  refine ⟨isEpisodeWatched_iff tracked n huniq, ?_⟩
  intro habs
  rw [isEpisodeWatched]
  have hnone : tracked.find? (fun e => e.episode_number == n) = none := by
    rw [List.find?_eq_none]
    intro a ha
    simp [habs a ha]
  rw [hnone]

/-- Witness for C10: a watched=false record and an absent record both render
unwatched. -/
theorem episode_watched_lookup_witness :
    isEpisodeWatched [⟨3, false⟩] 3 = false ∧
      isEpisodeWatched [] 3 = false := by
  constructor
  · have h := (episode_watched_lookup [⟨3, false⟩] 3 (by simp)).1
    rw [Bool.eq_false_iff]
    intro htrue
    rcases h.mp htrue with ⟨e, he, -, hw⟩
    rw [List.mem_singleton] at he
    subst he
    simp at hw
  · exact (episode_watched_lookup [] 3 List.Pairwise.nil).2 (by simp)

/-! ## Hero upcoming-pool membership (C4) -/

/-- C4 counterexample: `noBackdropTrackedShow` (id 7, no backdrop) is
excluded from the hero library pool, so the claim predicts the upcoming show
with id 7 and a backdrop enters the upcoming pool; the implementation
excludes it because id 7 is in the full tracked set. -/
theorem upcoming_pools_cex :
    upcomingShowSeven.backdrop_path = true
    ∧ libShowsSorted [noBackdropTrackedShow] = []
    ∧ upcomingTVHero [upcomingShowSeven] [noBackdropTrackedShow] = [] := by
  exact ⟨rfl, rfl, rfl⟩

/-- C4 (amended): an upcoming catalogue item is in the hero upcoming-show
(resp. upcoming-film) pool iff it has a backdrop and its id is not among the
tracked ids of the full tracked set (`validShows.map(s => s.tmdb_show_id)`,
resp. `validMovies.map(m => m.tmdb_movie_id)`) — exclusion is by the full
tracked-title set, not just the hero library pool. -/
theorem upcoming_pools (upTV upMovies validShows validMovies : List JItem)
    (s m : JItem) :
    (s ∈ upcomingTVHero upTV validShows ↔
      s ∈ upTV ∧ s.backdrop_path = true ∧
        some s.id ∉ libShowIds validShows)
    ∧ (m ∈ upcomingFilmsHero upMovies validMovies ↔
      m ∈ upMovies ∧ m.backdrop_path = true ∧
        some m.id ∉ libFilmIds validMovies) := by
  constructor
  · simp [upcomingTVHero, List.mem_filter, and_assoc]
  · simp [upcomingFilmsHero, List.mem_filter, and_assoc]

end Watchlist
